import Mathlib

/-!
Verification of `src/05-objects-tasks.js` (core-js-101).

The file shallowly embeds the three components of the module:

* `Rectangle` — the geometric value object (`function Rectangle(width, height)`);
* `getJSON` / `fromJSON` — the JSON codec (thin wrappers over `JSON.stringify`
  and `JSON.parse` + `Object.setPrototypeOf`); the standard serialization
  facility itself is not part of the repository, so it is modelled from the
  specification (see the `Json` section);
* `CssBuilder` — the CSS selector builder with ordering and uniqueness
  enforcement, the core of the module.

JavaScript objects are modelled as explicit state records; a method that
mutates `this` becomes a function `State → State` (or returning `Except`
when the method can throw).  A thrown error carries the post-throw state of
the handle, because in JavaScript the object survives the throw with all
mutations made before it.
-/

/-! ## The CSS selector builder (`class CssBuilder`) -/

/-- Errors thrown by the builder.  The source throws plain `Error`s with two
distinct messages; the spec names them `DuplicateSelectorPartError`
(message: element, id and pseudo-element should not occur more than one
time inside the selector) and `SelectorOrderError` (message: selector parts
should be arranged in the order element, id, class, attribute,
pseudo-class, pseudo-element). -/
inductive SelErr where
  | duplicate
  | order
deriving Repr, DecidableEq

/-- The mutable state of one `CssBuilder` handle, from the constructor /
`initAll` (lines 202–211 of the source).  JavaScript `null` becomes `none`;
the string fields keep the source's names (`class` being a Lean keyword,
the list of classes is the field `classes`, as in the source). -/
structure CssBuilder where
  tag : Option String
  classes : List String
  identificator : Option String
  attributes : List String
  psClasses : List String
  psElement : Option String
  selector : String
  order : Nat
deriving Repr, DecidableEq

/-- JavaScript truthiness of a nullable string: `null` and `''` are falsy,
every other string is truthy.  This is the test `if (this.tag)` etc. -/
def jsTruthy : Option String → Bool
  | none => false
  | some s => !(s == "")

/-- JavaScript `Array.prototype.join(sep)`: the elements concatenated with
`sep` between consecutive elements. -/
def joinSep (sep : String) : List String → String
  | [] => ""
  | [a] => a
  | a :: b :: rest => a ++ sep ++ joinSep sep (b :: rest)

namespace CssBuilder

/-- `initAll()` (lines 202–211): every field reset to its empty value. -/
def initAll : CssBuilder :=
  { tag := none
    classes := []
    identificator := none
    attributes := []
    psClasses := []
    psElement := none
    selector := ""
    order := 0 }

/-- The constructor `new CssBuilder()` just calls `initAll()`. -/
def mk' : CssBuilder := initAll

/-- `updateSelector()` (lines 213–234): recompute the cached selector string
from the accumulated fragments, in the fixed sequence tag, attributes, id,
classes, pseudo-classes, pseudo-element. -/
def render (s : CssBuilder) : String :=
  (if jsTruthy s.tag then s.tag.getD "" else "")
    ++ (if s.attributes.length != 0 then "[" ++ joinSep "][" s.attributes ++ "]" else "")
    ++ (if jsTruthy s.identificator then "#" ++ s.identificator.getD "" else "")
    ++ (if s.classes.length != 0 then joinSep "" (s.classes.map (fun el => "." ++ el)) else "")
    ++ (if s.psClasses.length != 0 then joinSep "" (s.psClasses.map (fun el => ":" ++ el)) else "")
    ++ (if jsTruthy s.psElement then "::" ++ s.psElement.getD "" else "")

/-- `updateSelector()` as a state update: store the recomputed string in the
`selector` field. -/
def updateSelector (s : CssBuilder) : CssBuilder :=
  { s with selector := render s }

/-- The result of a fragment-adding method: either the mutated handle, or an
error together with the state the handle is left in after the throw. -/
abbrev BuildResult := Except (SelErr × CssBuilder) CssBuilder

/-- `checkOrder(order)` (lines 124–129): throw when the tracked maximum rank
exceeds the rank of this call, otherwise record the new rank.  Note that the
source does *not* reset the handle here: on an order violation the state is
unchanged. -/
def checkOrder (o : Nat) (s : CssBuilder) : Except SelErr CssBuilder :=
  if s.order > o then Except.error SelErr.order
  else Except.ok { s with order := o }

/-- `onlyOneError()` (lines 119–122): reset the handle (`initAll`), then
throw the duplicate-part error. -/
def onlyOneError : SelErr × CssBuilder := (SelErr.duplicate, initAll)

/-- `element(value)` (lines 131–139). -/
def element (value : String) (s : CssBuilder) : BuildResult :=
  if jsTruthy s.tag then Except.error onlyOneError
  else
    match checkOrder 1 s with
    | Except.error e => Except.error (e, s)
    | Except.ok s₁ => Except.ok (updateSelector { s₁ with tag := some value })

/-- `id(value)` (lines 141–149). -/
def id (value : String) (s : CssBuilder) : BuildResult :=
  if jsTruthy s.identificator then Except.error onlyOneError
  else
    match checkOrder 2 s with
    | Except.error e => Except.error (e, s)
    | Except.ok s₁ => Except.ok (updateSelector { s₁ with identificator := some value })

/-- `class(value)` (lines 151–159); `class` is a Lean keyword, hence `cls`.
The lazy `if (!this.classes) this.classes = []` of the source is dead code
(the constructor always initialises `classes` to `[]`, which is truthy in
JavaScript), so it has no counterpart here. -/
def cls (value : String) (s : CssBuilder) : BuildResult :=
  match checkOrder 3 s with
  | Except.error e => Except.error (e, s)
  | Except.ok s₁ => Except.ok (updateSelector { s₁ with classes := s₁.classes ++ [value] })

/-- `attr(value)` (lines 161–169); same dead lazy-init remark as `cls`. -/
def attr (value : String) (s : CssBuilder) : BuildResult :=
  match checkOrder 4 s with
  | Except.error e => Except.error (e, s)
  | Except.ok s₁ => Except.ok (updateSelector { s₁ with attributes := s₁.attributes ++ [value] })

/-- `pseudoClass(value)` (lines 171–179); same dead lazy-init remark. -/
def pseudoClass (value : String) (s : CssBuilder) : BuildResult :=
  match checkOrder 5 s with
  | Except.error e => Except.error (e, s)
  | Except.ok s₁ => Except.ok (updateSelector { s₁ with psClasses := s₁.psClasses ++ [value] })

/-- `pseudoElement(value)` (lines 181–189). -/
def pseudoElement (value : String) (s : CssBuilder) : BuildResult :=
  if jsTruthy s.psElement then Except.error onlyOneError
  else
    match checkOrder 6 s with
    | Except.error e => Except.error (e, s)
    | Except.ok s₁ => Except.ok (updateSelector { s₁ with psElement := some value })

/-- `stringify()` (lines 196–200): return the cached selector and reset the
handle. -/
def stringify (s : CssBuilder) : String × CssBuilder :=
  (s.selector, initAll)

/-- `combine(selector1, combinator, selector2)` (lines 191–194): stringify
both argument handles (which resets them) and store the joined string as
this handle's selector.  Returns the updated handle together with the two
reset argument handles. -/
def combine (s : CssBuilder) (selector1 : CssBuilder) (combinator : String)
    (selector2 : CssBuilder) : CssBuilder × CssBuilder × CssBuilder :=
  let r1 := stringify selector1
  let r2 := stringify selector2
  ({ s with selector := r1.1 ++ " " ++ combinator ++ " " ++ r2.1 }, r1.2, r2.2)

end CssBuilder

/-! The facade `cssSelectorBuilder` (lines 237–244): every top-level entry
point allocates a fresh handle and invokes the method of the same name on
it. -/

/-- Facade `cssSelectorBuilder.element`. -/
def facadeElement (value : String) : CssBuilder.BuildResult :=
  CssBuilder.element value CssBuilder.mk'

/-- Facade `cssSelectorBuilder.id`. -/
def facadeId (value : String) : CssBuilder.BuildResult :=
  CssBuilder.id value CssBuilder.mk'

/-- Facade `cssSelectorBuilder.class`. -/
def facadeClass (value : String) : CssBuilder.BuildResult :=
  CssBuilder.cls value CssBuilder.mk'

/-- Facade `cssSelectorBuilder.attr`. -/
def facadeAttr (value : String) : CssBuilder.BuildResult :=
  CssBuilder.attr value CssBuilder.mk'

/-- Facade `cssSelectorBuilder.pseudoClass`. -/
def facadePseudoClass (value : String) : CssBuilder.BuildResult :=
  CssBuilder.pseudoClass value CssBuilder.mk'

/-- Facade `cssSelectorBuilder.pseudoElement`. -/
def facadePseudoElement (value : String) : CssBuilder.BuildResult :=
  CssBuilder.pseudoElement value CssBuilder.mk'

/-- Facade `cssSelectorBuilder.combine`. -/
def facadeCombine (selector1 : CssBuilder) (combinator : String)
    (selector2 : CssBuilder) : CssBuilder × CssBuilder × CssBuilder :=
  CssBuilder.combine CssBuilder.mk' selector1 combinator selector2

/-! ## The value object (`function Rectangle`) -/

/-- The state of a `Rectangle` object: the two stored fields.  JavaScript
numbers are modelled as integers, which suffices for the algebraic claims
about the constructor. -/
structure RectangleObj where
  width : Int
  height : Int
deriving Repr, DecidableEq

/-- `Rectangle(width, height)` (lines 23–28): store both parameters. -/
def Rectangle (width height : Int) : RectangleObj :=
  { width := width, height := height }

/-- `getArea()` reads `this.width * this.height` at call time; it is a
function of the current state, not a cached value. -/
def RectangleObj.getArea (r : RectangleObj) : Int :=
  r.width * r.height

/-- Mutation of the `width` field after construction (plain JavaScript field
assignment `r.width = w`). -/
def RectangleObj.setWidth (r : RectangleObj) (w : Int) : RectangleObj :=
  { r with width := w }

/-- Mutation of the `height` field after construction. -/
def RectangleObj.setHeight (r : RectangleObj) (h : Int) : RectangleObj :=
  { r with height := h }

/-! ## The rendering sequence as the specification words it (for claim C3) -/

/-- A singleton fragment as the specification describes it: contributes `f v`
when the category is set.  A category counts as set when its stored value is
truthy (the occupancy notion the builder itself uses everywhere). -/
def setPart (o : Option String) (f : String → String) : String :=
  match o with
  | none => ""
  | some v => if v = "" then "" else f v

/-- Plain concatenation of a list of already-prefixed fragments, as in
"each class prefixed with `.`, concatenated". -/
def concatParts : List String → String
  | [] => ""
  | p :: rest => p ++ concatParts rest

/-- The rendered selector as the specification states it: tag (if set), then
each attribute wrapped in square brackets, then the id prefixed with `#` (if
set), then each class prefixed with `.`, then each pseudo-class prefixed
with `:`, then the pseudo-element prefixed with `::` (if set). -/
def renderSpec (s : CssBuilder) : String :=
  setPart s.tag (fun t => t)
    ++ concatParts (s.attributes.map (fun a => "[" ++ a ++ "]"))
    ++ setPart s.identificator (fun i => "#" ++ i)
    ++ concatParts (s.classes.map (fun c => "." ++ c))
    ++ concatParts (s.psClasses.map (fun p => ":" ++ p))
    ++ setPart s.psElement (fun p => "::" ++ p)

/-! ## The JSON codec (`getJSON` / `fromJSON`)

Modelled from the spec: `getJSON`/`fromJSON` delegate to `JSON.stringify`,
`JSON.parse` and `Object.setPrototypeOf`, which are platform collaborators,
not repository code — the spec describes them as "a standard deterministic
text serialization/parsing facility for structured data" and "a generic
capability-binding primitive that attaches a descriptor to a parsed value".
The model below embeds that facility for plain structured data (objects,
arrays, strings, booleans, null, integer numbers): a serializer to the
canonical compact text (no whitespace, keys in stored order, quote and
backslash escaped in strings) and a parser for exactly that textual form.
`Object.setPrototypeOf` is modelled by pairing the parsed plain value with
the supplied descriptor. -/

mutual

/-- Plain structured data: objects, arrays, primitives with keys/values
only.  Numbers are integers in this model. -/
inductive JValue where
  | null : JValue
  | bool (b : Bool) : JValue
  | num (n : Int) : JValue
  | str (s : List Char) : JValue
  | arr (items : JItems) : JValue
  | obj (fields : JFields) : JValue

/-- The elements of an array, in order. -/
inductive JItems where
  | nil : JItems
  | cons (hd : JValue) (tl : JItems) : JItems

/-- The key/value fields of an object, in stored (insertion) order. -/
inductive JFields where
  | nil : JFields
  | cons (key : List Char) (val : JValue) (tl : JFields) : JFields

end

/-- String escaping on serialization: quote and backslash get a backslash,
every other character is emitted verbatim. -/
def escapeChar (c : Char) : List Char :=
  if c = '"' then ['\\', '"'] else if c = '\\' then ['\\', '\\'] else [c]

/-- Escape a whole string body. -/
def escapeString : List Char → List Char
  | [] => []
  | c :: rest => escapeChar c ++ escapeString rest

/-- The character for one decimal digit. -/
def digitChar (n : Nat) : Char :=
  if n = 0 then '0' else if n = 1 then '1' else if n = 2 then '2' else if n = 3 then '3'
  else if n = 4 then '4' else if n = 5 then '5' else if n = 6 then '6' else if n = 7 then '7'
  else if n = 8 then '8' else '9'

/-- Decimal digits of a natural number, most significant first; the first
argument is recursion fuel (any fuel above the value works, see the lemmas
below). -/
def natToCharsCore : Nat → Nat → List Char → List Char
  | 0, _, acc => acc
  | fuel + 1, n, acc =>
    if n < 10 then digitChar n :: acc
    else natToCharsCore fuel (n / 10) (digitChar (n % 10) :: acc)

/-- Decimal notation of a natural number. -/
def natToChars (n : Nat) : List Char :=
  natToCharsCore (n + 1) n []

/-- Decimal notation of an integer. -/
def intToChars (n : Int) : List Char :=
  if n < 0 then '-' :: natToChars n.natAbs else natToChars n.natAbs

mutual

/-- Canonical serialization of a value (`JSON.stringify`, modelled from the
spec): compact, no whitespace, object keys in stored order. -/
def serVal : JValue → List Char
  | JValue.null => ['n', 'u', 'l', 'l']
  | JValue.bool true => ['t', 'r', 'u', 'e']
  | JValue.bool false => ['f', 'a', 'l', 's', 'e']
  | JValue.num n => intToChars n
  | JValue.str s => '"' :: (escapeString s ++ ['"'])
  | JValue.arr items => '[' :: (serItems items ++ [']'])
  | JValue.obj fields => '\x7b' :: (serFields fields ++ ['\x7d'])

/-- Serialization of array elements, comma separated. -/
def serItems : JItems → List Char
  | JItems.nil => []
  | JItems.cons v JItems.nil => serVal v
  | JItems.cons v (JItems.cons w tl) =>
    serVal v ++ (',' :: serItems (JItems.cons w tl))

/-- Serialization of object fields, comma separated, each as
`"key":value`. -/
def serFields : JFields → List Char
  | JFields.nil => []
  | JFields.cons k v JFields.nil =>
    '"' :: (escapeString k ++ ('"' :: ':' :: serVal v))
  | JFields.cons k v (JFields.cons k₂ w tl) =>
    '"' :: (escapeString k ++ ('"' :: ':' :: serVal v)) ++
      (',' :: serFields (JFields.cons k₂ w tl))

end

/-- Parse a string body up to the closing unescaped quote; returns the
decoded characters and the rest of the input. -/
def parseString (cs : List Char) : Option (List Char × List Char) :=
  match cs with
  | [] => none
  | c :: rest =>
    if c = '"' then some ([], rest)
    else if c = '\\' then
      match rest with
      | [] => none
      | e :: rest₂ =>
        if e = '"' ∨ e = '\\' then
          (parseString rest₂).map (fun p => (e :: p.1, p.2))
        else none
    else (parseString rest).map (fun p => (c :: p.1, p.2))

/-- Numeric value of a digit character. -/
def digitVal (c : Char) : Nat := c.toNat - 48

/-- Split off the maximal leading run of digits. -/
def spanDigits : List Char → List Char × List Char
  | [] => ([], [])
  | c :: rest =>
    if c.isDigit then
      let p := spanDigits rest
      (c :: p.1, p.2)
    else ([], c :: rest)

/-- Decimal value of a digit run. -/
def digitsToNat (ds : List Char) : Nat :=
  ds.foldl (fun acc c => acc * 10 + digitVal c) 0

/-- Parse a nonempty digit run into a number. -/
def parseNumFrom (cs : List Char) : Option (Int × List Char) :=
  match spanDigits cs with
  | ([], _) => none
  | (ds, rest) => some ((digitsToNat ds : Int), rest)

mutual

/-- Parse one serialized value (`JSON.parse`, modelled from the spec of the
serialization facility); the first argument is recursion fuel. -/
def parseVal : Nat → List Char → Option (JValue × List Char)
  | 0, _ => none
  | _ + 1, [] => none
  | fuel + 1, c :: rest =>
    if c = 'n' then
      match rest with
      | 'u' :: 'l' :: 'l' :: r => some (JValue.null, r)
      | _ => none
    else if c = 't' then
      match rest with
      | 'r' :: 'u' :: 'e' :: r => some (JValue.bool true, r)
      | _ => none
    else if c = 'f' then
      match rest with
      | 'a' :: 'l' :: 's' :: 'e' :: r => some (JValue.bool false, r)
      | _ => none
    else if c = '"' then
      (parseString rest).map (fun p => (JValue.str p.1, p.2))
    else if c = '[' then
      match rest with
      | [] => none
      | c₂ :: r =>
        if c₂ = ']' then some (JValue.arr JItems.nil, r)
        else (parseItems1 fuel (c₂ :: r)).map (fun p => (JValue.arr p.1, p.2))
    else if c = '\x7b' then
      match rest with
      | [] => none
      | c₂ :: r =>
        if c₂ = '\x7d' then some (JValue.obj JFields.nil, r)
        else (parseFields1 fuel (c₂ :: r)).map (fun p => (JValue.obj p.1, p.2))
    else if c = '-' then
      (parseNumFrom rest).map (fun p => (JValue.num (-p.1), p.2))
    else if c.isDigit then
      (parseNumFrom (c :: rest)).map (fun p => (JValue.num p.1, p.2))
    else none

/-- Parse a nonempty comma-separated element list up to and including the
closing bracket. -/
def parseItems1 : Nat → List Char → Option (JItems × List Char)
  | 0, _ => none
  | fuel + 1, cs =>
    match parseVal fuel cs with
    | none => none
    | some (v, rest) =>
      match rest with
      | [] => none
      | c :: r =>
        if c = ',' then (parseItems1 fuel r).map (fun p => (JItems.cons v p.1, p.2))
        else if c = ']' then some (JItems.cons v JItems.nil, r)
        else none

/-- Parse a nonempty comma-separated field list up to and including the
closing brace. -/
def parseFields1 : Nat → List Char → Option (JFields × List Char)
  | 0, _ => none
  | fuel + 1, cs =>
    match cs with
    | [] => none
    | c :: rest =>
      if c = '"' then
        match parseString rest with
        | none => none
        | some (k, rest₂) =>
          match rest₂ with
          | [] => none
          | c₂ :: rest₃ =>
            if c₂ = ':' then
              match parseVal fuel rest₃ with
              | none => none
              | some (v, rest₄) =>
                match rest₄ with
                | [] => none
                | c₃ :: rest₅ =>
                  if c₃ = ',' then
                    (parseFields1 fuel rest₅).map (fun p => (JFields.cons k v p.1, p.2))
                  else if c₃ = '\x7d' then some (JFields.cons k v JFields.nil, rest₅)
                  else none
            else none
      else none

end

/-- Top-level parse: the whole input must be consumed.  Fuel one larger than
the input length always suffices (see the fuel lemmas). -/
def jsonParse (cs : List Char) : Option JValue :=
  match parseVal (cs.length + 1) cs with
  | some (v, []) => some v
  | _ => none

mutual

/-- Fuel sufficient for `parseVal` on the serialization of a value. -/
def fuelNeed : JValue → Nat
  | JValue.null => 1
  | JValue.bool _ => 1
  | JValue.num _ => 1
  | JValue.str _ => 1
  | JValue.arr items => 1 + fuelNeedItems items
  | JValue.obj fields => 1 + fuelNeedFields fields

/-- Fuel sufficient for `parseItems1` on serialized elements. -/
def fuelNeedItems : JItems → Nat
  | JItems.nil => 0
  | JItems.cons v tl => 1 + max (fuelNeed v) (fuelNeedItems tl)

/-- Fuel sufficient for `parseFields1` on serialized fields. -/
def fuelNeedFields : JFields → Nat
  | JFields.nil => 0
  | JFields.cons _ v tl => 1 + max (fuelNeed v) (fuelNeedFields tl)

end

/-- A delimiter position: a number stops parsing here (either end of input
or a non-digit character). -/
def stops : List Char → Bool
  | [] => true
  | c :: _ => !c.isDigit

/-- `getJSON(obj)` (lines 41–43): `JSON.stringify` of the value. -/
def getJSON (x : JValue) : String :=
  String.mk (serVal x)

/-- The error raised by `JSON.parse` on malformed text (the spec's
`ParseError`). -/
inductive ParseError where
  | parseError
deriving Repr, DecidableEq

/-- A parsed value with a capability descriptor bound to it
(`Object.setPrototypeOf(obj, proto)`): the plain data plus the descriptor
whose methods become available on it. -/
structure BoundObj (α : Type) where
  proto : α
  data : JValue

/-- `fromJSON(proto, json)` (lines 57–61): parse the text, then bind the
descriptor to the parsed value unconditionally; fails with `ParseError`
exactly when parsing fails. -/
def fromJSON {α : Type} (proto : α) (json : String) : Except ParseError (BoundObj α) :=
  match jsonParse json.data with
  | none => Except.error ParseError.parseError
  | some v => Except.ok { proto := proto, data := v }

/-! ## Helper lemmas about the builder -/

theorem checkOrder_ok (o : Nat) (s : CssBuilder) (h : s.order ≤ o) :
    CssBuilder.checkOrder o s = Except.ok { s with order := o } := by
  unfold CssBuilder.checkOrder
  rw [if_neg (by omega)]

theorem checkOrder_err (o : Nat) (s : CssBuilder) (h : o < s.order) :
    CssBuilder.checkOrder o s = Except.error SelErr.order := by
  unfold CssBuilder.checkOrder
  rw [if_pos (by omega)]

theorem element_ok (s : CssBuilder) (v : String) (h₁ : jsTruthy s.tag = false)
    (h₂ : s.order ≤ 1) :
    CssBuilder.element v s = Except.ok (CssBuilder.updateSelector
      { s with tag := some v, order := 1 }) := by
  rw [CssBuilder.element, if_neg (by simp [h₁]), checkOrder_ok 1 s h₂]

theorem id_ok (s : CssBuilder) (v : String) (h₁ : jsTruthy s.identificator = false)
    (h₂ : s.order ≤ 2) :
    CssBuilder.id v s = Except.ok (CssBuilder.updateSelector
      { s with identificator := some v, order := 2 }) := by
  rw [CssBuilder.id, if_neg (by simp [h₁]), checkOrder_ok 2 s h₂]

theorem pseudoElement_ok (s : CssBuilder) (v : String) (h₁ : jsTruthy s.psElement = false)
    (h₂ : s.order ≤ 6) :
    CssBuilder.pseudoElement v s = Except.ok (CssBuilder.updateSelector
      { s with psElement := some v, order := 6 }) := by
  rw [CssBuilder.pseudoElement, if_neg (by simp [h₁]), checkOrder_ok 6 s h₂]

theorem cls_ok (s : CssBuilder) (v : String) (h : s.order ≤ 3) :
    CssBuilder.cls v s = Except.ok (CssBuilder.updateSelector
      { s with classes := s.classes ++ [v], order := 3 }) := by
  rw [CssBuilder.cls, checkOrder_ok 3 s h]

theorem attr_ok (s : CssBuilder) (v : String) (h : s.order ≤ 4) :
    CssBuilder.attr v s = Except.ok (CssBuilder.updateSelector
      { s with attributes := s.attributes ++ [v], order := 4 }) := by
  rw [CssBuilder.attr, checkOrder_ok 4 s h]

theorem pseudoClass_ok (s : CssBuilder) (v : String) (h : s.order ≤ 5) :
    CssBuilder.pseudoClass v s = Except.ok (CssBuilder.updateSelector
      { s with psClasses := s.psClasses ++ [v], order := 5 }) := by
  rw [CssBuilder.pseudoClass, checkOrder_ok 5 s h]

theorem setPart_tag (o : Option String) :
    (if jsTruthy o then o.getD "" else "") = setPart o (fun t => t) := by
  cases o with
  | none => rfl
  | some v =>
    by_cases h : v = ""
    · subst h; rfl
    · simp [jsTruthy, setPart, h]

theorem setPart_id (o : Option String) :
    (if jsTruthy o then "#" ++ o.getD "" else "") = setPart o (fun i => "#" ++ i) := by
  cases o with
  | none => rfl
  | some v =>
    by_cases h : v = ""
    · subst h; rfl
    · simp [jsTruthy, setPart, h]

theorem setPart_pe (o : Option String) :
    (if jsTruthy o then "::" ++ o.getD "" else "") = setPart o (fun p => "::" ++ p) := by
  cases o with
  | none => rfl
  | some v =>
    by_cases h : v = ""
    · subst h; rfl
    · simp [jsTruthy, setPart, h]

theorem concat_classes (l : List String) :
    (if l.length != 0 then joinSep "" l else "") = concatParts l := by
  induction l with
  | nil => rfl
  | cons a t ih =>
    cases t with
    | nil =>
      show a = a ++ ""
      rw [String.append_empty]
    | cons b t2 =>
      have ih' : joinSep "" (b :: t2) = concatParts (b :: t2) := ih
      show (a ++ "") ++ joinSep "" (b :: t2) = a ++ concatParts (b :: t2)
      rw [String.append_empty, ih']

theorem concat_mapped (l : List String) (f : String → String) :
    (if l.length != 0 then joinSep "" (l.map f) else "") = concatParts (l.map f) := by
  rw [show l.length = (l.map f).length from by simp]
  exact concat_classes (l.map f)

theorem concat_bracketed (l : List String) :
    (if l.length != 0 then "[" ++ joinSep "][" l ++ "]" else "") =
      concatParts (l.map (fun a => "[" ++ a ++ "]")) := by
  induction l with
  | nil => rfl
  | cons a t ih =>
    cases t with
    | nil =>
      show "[" ++ a ++ "]" = ("[" ++ a ++ "]") ++ ""
      rw [String.append_empty]
    | cons b t2 =>
      have ih' : "[" ++ joinSep "][" (b :: t2) ++ "]" =
          concatParts ((b :: t2).map (fun a => "[" ++ a ++ "]")) := ih
      show "[" ++ ((a ++ "][") ++ joinSep "][" (b :: t2)) ++ "]" =
        ("[" ++ a ++ "]") ++ concatParts ((b :: t2).map (fun a => "[" ++ a ++ "]"))
      have hsep : ("][" : String) = "]" ++ "[" := by decide
      rw [← ih']
      simp only [String.append_assoc]
      rw [hsep, String.append_assoc]

/-! ## Helper lemmas about the JSON codec -/

theorem parseString_escape (s : List Char) (rest : List Char) :
    parseString (escapeString s ++ ('"' :: rest)) = some (s, rest) := by
  induction s with
  | nil =>
    show parseString ('"' :: rest) = some ([], rest)
    rw [parseString.eq_def]
    rfl
  | cons c s' ih =>
    by_cases h1 : c = '"'
    · subst h1
      show parseString ('\\' :: '"' :: (escapeString s' ++ ('"' :: rest))) =
        some ('"' :: s', rest)
      rw [parseString.eq_def]
      dsimp only
      rw [ih]
      rfl
    · by_cases h2 : c = '\\'
      · subst h2
        show parseString ('\\' :: '\\' :: (escapeString s' ++ ('"' :: rest))) =
          some ('\\' :: s', rest)
        rw [parseString.eq_def]
        dsimp only
        rw [ih]
        rfl
      · have he : escapeString (c :: s') ++ ('"' :: rest) =
            c :: (escapeString s' ++ ('"' :: rest)) := by
          simp [escapeString, escapeChar, h1, h2]
        rw [he, parseString.eq_def]
        dsimp only
        rw [if_neg h1, if_neg h2, ih]
        rfl

theorem digitChar_isDigit (n : Nat) : (digitChar n).isDigit = true := by
  unfold digitChar
  split_ifs <;> decide

theorem digitVal_digitChar (n : Nat) (h : n < 10) : digitVal (digitChar n) = n := by
  interval_cases n <;> decide

theorem natToCharsCore_append (fuel : Nat) : ∀ n acc, n < fuel →
    natToCharsCore fuel n acc = natToCharsCore fuel n [] ++ acc := by
  induction fuel with
  | zero => intro n acc h; omega
  | succ f ih =>
    intro n acc h
    by_cases h10 : n < 10
    · simp [natToCharsCore, h10]
    · have hlt : n / 10 < f := by omega
      simp only [natToCharsCore, if_neg h10]
      rw [ih (n / 10) (digitChar (n % 10) :: acc) hlt, ih (n / 10) [digitChar (n % 10)] hlt]
      simp

theorem natToCharsCore_digits (fuel : Nat) : ∀ n, n < fuel →
    ∀ c ∈ natToCharsCore fuel n [], c.isDigit = true := by
  induction fuel with
  | zero => intro n h; omega
  | succ f ih =>
    intro n h c hc
    by_cases h10 : n < 10
    · simp [natToCharsCore, h10] at hc
      subst hc
      exact digitChar_isDigit n
    · have hlt : n / 10 < f := by omega
      simp only [natToCharsCore, if_neg h10] at hc
      rw [natToCharsCore_append f (n / 10) [digitChar (n % 10)] hlt] at hc
      rcases List.mem_append.mp hc with hmem | hmem
      · exact ih (n / 10) hlt c hmem
      · simp at hmem
        subst hmem
        exact digitChar_isDigit (n % 10)

theorem natToCharsCore_ne_nil (fuel n : Nat) (h : n < fuel) :
    natToCharsCore fuel n [] ≠ [] := by
  cases fuel with
  | zero => omega
  | succ f =>
    by_cases h10 : n < 10
    · simp [natToCharsCore, h10]
    · have hlt : n / 10 < f := by omega
      simp only [natToCharsCore, if_neg h10]
      rw [natToCharsCore_append f (n / 10) [digitChar (n % 10)] hlt]
      simp

theorem natToChars_head (n : Nat) :
    ∃ c t, natToChars n = c :: t ∧ c.isDigit = true := by
  have hne := natToCharsCore_ne_nil (n + 1) n (by omega)
  cases hc : natToCharsCore (n + 1) n [] with
  | nil => exact absurd hc hne
  | cons c t =>
    refine ⟨c, t, hc, ?_⟩
    exact natToCharsCore_digits (n + 1) n (by omega) c (by rw [hc]; simp)

theorem digitsToNat_natToCharsCore (fuel : Nat) : ∀ n, n < fuel →
    digitsToNat (natToCharsCore fuel n []) = n := by
  induction fuel with
  | zero => intro n h; omega
  | succ f ih =>
    intro n h
    by_cases h10 : n < 10
    · simp [natToCharsCore, h10, digitsToNat, digitVal_digitChar n h10]
    · have hlt : n / 10 < f := by omega
      simp only [natToCharsCore, if_neg h10]
      rw [natToCharsCore_append f (n / 10) [digitChar (n % 10)] hlt]
      unfold digitsToNat
      rw [List.foldl_append]
      have hmod := digitVal_digitChar (n % 10) (by omega)
      simp only [List.foldl_cons, List.foldl_nil, hmod]
      have := ih (n / 10) hlt
      unfold digitsToNat at this
      rw [this]
      omega

theorem digitsToNat_natToChars (n : Nat) : digitsToNat (natToChars n) = n :=
  digitsToNat_natToCharsCore (n + 1) n (by omega)

theorem spanDigits_append (ds rest : List Char) (hds : ∀ c ∈ ds, c.isDigit = true)
    (hrest : stops rest = true) : spanDigits (ds ++ rest) = (ds, rest) := by
  induction ds with
  | nil =>
    cases rest with
    | nil => rfl
    | cons c r =>
      simp [stops] at hrest
      simp [spanDigits, hrest]
  | cons d ds' ih =>
    have hd : d.isDigit = true := hds d (by simp)
    simp [spanDigits, hd, ih (fun c hc => hds c (by simp [hc]))]

theorem parseNumFrom_digits (n : Nat) (rest : List Char) (h : stops rest = true) :
    parseNumFrom (natToChars n ++ rest) = some ((n : Int), rest) := by
  have hspan := spanDigits_append (natToChars n) rest
    (natToCharsCore_digits (n + 1) n (by omega)) h
  obtain ⟨c, t, hc, _⟩ := natToChars_head n
  rw [hc] at hspan
  unfold parseNumFrom
  rw [hc]
  rw [hspan]
  show some ((digitsToNat (c :: t) : Int), rest) = some ((n : Int), rest)
  rw [← hc, digitsToNat_natToChars]

theorem isDigit_ne (c d : Char) (hc : c.isDigit = true) (hd : d.isDigit = false) :
    c ≠ d := by
  intro he
  subst he
  rw [hc] at hd
  exact Bool.noConfusion hd

theorem serVal_head (v : JValue) :
    ∃ c t, serVal v = c :: t ∧ c ≠ ']' ∧ c ≠ '\x7d' := by
  cases v with
  | null => exact ⟨'n', _, rfl, by decide, by decide⟩
  | bool b =>
    cases b with
    | true => exact ⟨'t', _, rfl, by decide, by decide⟩
    | false => exact ⟨'f', _, rfl, by decide, by decide⟩
  | num n =>
    by_cases h : n < 0
    · exact ⟨'-', natToChars n.natAbs, by simp [serVal, intToChars, h], by decide, by decide⟩
    · obtain ⟨c, t, hc, hd⟩ := natToChars_head n.natAbs
      exact ⟨c, t, by simp [serVal, intToChars, h, hc],
        isDigit_ne c ']' hd (by decide), isDigit_ne c '\x7d' hd (by decide)⟩
  | str s => exact ⟨'"', _, rfl, by decide, by decide⟩
  | arr items => exact ⟨'[', _, rfl, by decide, by decide⟩
  | obj fields => exact ⟨'\x7b', _, rfl, by decide, by decide⟩

theorem fuelNeed_pos (v : JValue) : 1 ≤ fuelNeed v := by
  cases v <;> simp [fuelNeed]

theorem serItems_cons_eq (w : JValue) (tl : JItems) :
    ∃ X, serItems (JItems.cons w tl) = serVal w ++ X := by
  cases tl with
  | nil => exact ⟨[], by simp [serItems]⟩
  | cons a b => exact ⟨',' :: serItems (JItems.cons a b), rfl⟩

theorem serFields_cons_eq (k : List Char) (v : JValue) (tl : JFields) :
    ∃ Y, serFields (JFields.cons k v tl) = '"' :: Y := by
  cases tl with
  | nil => exact ⟨_, rfl⟩
  | cons k₂ w tl₂ => exact ⟨_, rfl⟩

mutual

theorem fuelNeed_le (v : JValue) : fuelNeed v ≤ (serVal v).length := by
  cases v with
  | null => simp [fuelNeed, serVal]
  | bool b => cases b <;> simp [fuelNeed, serVal]
  | num n =>
    obtain ⟨c, t, hc, _, _⟩ := serVal_head (JValue.num n)
    simp [fuelNeed, hc]
  | str s => simp [fuelNeed, serVal]
  | arr items =>
    have h := fuelNeedItems_le items
    show 1 + fuelNeedItems items ≤ ('[' :: (serItems items ++ [']'])).length
    simp only [List.length_cons, List.length_append, List.length_nil]
    omega
  | obj fields =>
    have h := fuelNeedFields_le fields
    show 1 + fuelNeedFields fields ≤ ('\x7b' :: (serFields fields ++ ['\x7d'])).length
    simp only [List.length_cons, List.length_append, List.length_nil]
    omega

theorem fuelNeedItems_le (its : JItems) : fuelNeedItems its ≤ (serItems its).length + 1 := by
  cases its with
  | nil => simp [fuelNeedItems, serItems]
  | cons v tl =>
    have hv := fuelNeed_le v
    cases tl with
    | nil =>
      show 1 + max (fuelNeed v) (fuelNeedItems JItems.nil) ≤ (serVal v).length + 1
      simp only [fuelNeedItems]
      omega
    | cons w tl₂ =>
      have htl := fuelNeedItems_le (JItems.cons w tl₂)
      show 1 + max (fuelNeed v) (fuelNeedItems (JItems.cons w tl₂)) ≤
        (serVal v ++ (',' :: serItems (JItems.cons w tl₂))).length + 1
      simp only [List.length_append, List.length_cons]
      omega

theorem fuelNeedFields_le (fs : JFields) : fuelNeedFields fs ≤ (serFields fs).length + 1 := by
  cases fs with
  | nil => simp [fuelNeedFields, serFields]
  | cons k v tl =>
    have hv := fuelNeed_le v
    cases tl with
    | nil =>
      show 1 + max (fuelNeed v) (fuelNeedFields JFields.nil) ≤
        ('"' :: (escapeString k ++ ('"' :: ':' :: serVal v))).length + 1
      simp only [fuelNeedFields, List.length_cons, List.length_append]
      omega
    | cons k₂ w tl₂ =>
      have htl := fuelNeedFields_le (JFields.cons k₂ w tl₂)
      show 1 + max (fuelNeed v) (fuelNeedFields (JFields.cons k₂ w tl₂)) ≤
        (('"' :: (escapeString k ++ ('"' :: ':' :: serVal v))) ++
          (',' :: serFields (JFields.cons k₂ w tl₂))).length + 1
      simp only [List.length_cons, List.length_append]
      omega

end

set_option maxHeartbeats 1000000

mutual

theorem parseVal_ser (v : JValue) (fuel : Nat) (rest : List Char)
    (hfuel : fuelNeed v ≤ fuel) (hrest : stops rest = true) :
    parseVal fuel (serVal v ++ rest) = some (v, rest) := by
  cases fuel with
  | zero =>
    have h1 := fuelNeed_pos v
    omega
  | succ f =>
    cases v with
    | null =>
      show parseVal (f + 1) ('n' :: 'u' :: 'l' :: 'l' :: rest) = some (JValue.null, rest)
      rw [parseVal.eq_def]
      rfl
    | bool b =>
      cases b with
      | true =>
        show parseVal (f + 1) ('t' :: 'r' :: 'u' :: 'e' :: rest) =
          some (JValue.bool true, rest)
        rw [parseVal.eq_def]
        rfl
      | false =>
        show parseVal (f + 1) ('f' :: 'a' :: 'l' :: 's' :: 'e' :: rest) =
          some (JValue.bool false, rest)
        rw [parseVal.eq_def]
        rfl
    | num n =>
      by_cases hneg : n < 0
      · have hser : serVal (JValue.num n) = '-' :: natToChars n.natAbs := by
          simp [serVal, intToChars, hneg]
        rw [show serVal (JValue.num n) ++ rest = '-' :: (natToChars n.natAbs ++ rest) from by
          rw [hser]; rfl]
        rw [parseVal.eq_def]
        dsimp only
        rw [parseNumFrom_digits n.natAbs rest hrest]
        have habs : (-((n.natAbs : Nat) : Int)) = n := by omega
        show some (JValue.num (-((n.natAbs : Nat) : Int)), rest) = some (JValue.num n, rest)
        rw [habs]
      · obtain ⟨c, t, hc, hd⟩ := natToChars_head n.natAbs
        have hser : serVal (JValue.num n) = natToChars n.natAbs := by
          simp [serVal, intToChars, hneg]
        have hinput : serVal (JValue.num n) ++ rest = c :: (t ++ rest) := by
          rw [hser, hc]; rfl
        rw [hinput, parseVal.eq_def]
        dsimp only
        have h1 : ¬c = 'n' := isDigit_ne c 'n' hd (by decide)
        have h2 : ¬c = 't' := isDigit_ne c 't' hd (by decide)
        have h3 : ¬c = 'f' := isDigit_ne c 'f' hd (by decide)
        have h4 : ¬c = '"' := isDigit_ne c '"' hd (by decide)
        have h5 : ¬c = '[' := isDigit_ne c '[' hd (by decide)
        have h6 : ¬c = '\x7b' := isDigit_ne c '\x7b' hd (by decide)
        have h7 : ¬c = '-' := isDigit_ne c '-' hd (by decide)
        rw [if_neg h1, if_neg h2, if_neg h3, if_neg h4, if_neg h5, if_neg h6, if_neg h7,
          if_pos hd]
        rw [show c :: (t ++ rest) = natToChars n.natAbs ++ rest from by rw [hc]; rfl]
        rw [parseNumFrom_digits n.natAbs rest hrest]
        have habs : ((n.natAbs : Nat) : Int) = n := by omega
        show some (JValue.num ((n.natAbs : Nat) : Int), rest) = some (JValue.num n, rest)
        rw [habs]
    | str s =>
      have hassoc : serVal (JValue.str s) ++ rest =
          '"' :: (escapeString s ++ ('"' :: rest)) := by
        show ('"' :: (escapeString s ++ ['"'])) ++ rest = _
        simp [List.append_assoc]
      rw [hassoc, parseVal.eq_def]
      dsimp only
      rw [parseString_escape s rest]
      rfl
    | arr items =>
      cases items with
      | nil =>
        show parseVal (f + 1) ('[' :: ']' :: rest) = some (JValue.arr JItems.nil, rest)
        rw [parseVal.eq_def]
        rfl
      | cons w tl =>
        have hfi : fuelNeedItems (JItems.cons w tl) ≤ f := by
          simp only [fuelNeed] at hfuel
          omega
        have hmain := parseItems1_ser w tl f rest hfi
        obtain ⟨X, hX⟩ := serItems_cons_eq w tl
        obtain ⟨c, t, hc, hcne, _⟩ := serVal_head w
        have hinput : serVal (JValue.arr (JItems.cons w tl)) ++ rest =
            '[' :: (c :: (t ++ (X ++ (']' :: rest)))) := by
          show ('[' :: (serItems (JItems.cons w tl) ++ [']'])) ++ rest = _
          rw [hX, hc]
          simp [List.append_assoc]
        have hmain2 : parseItems1 f (c :: (t ++ (X ++ (']' :: rest)))) =
            some (JItems.cons w tl, rest) := by
          rw [show c :: (t ++ (X ++ (']' :: rest))) =
            serItems (JItems.cons w tl) ++ (']' :: rest) from by
              rw [hX, hc]; simp [List.append_assoc]]
          exact hmain
        rw [hinput, parseVal.eq_def]
        dsimp only
        rw [if_neg hcne, hmain2]
        rfl
    | obj fields =>
      cases fields with
      | nil =>
        show parseVal (f + 1) ('\x7b' :: '\x7d' :: rest) =
          some (JValue.obj JFields.nil, rest)
        rw [parseVal.eq_def]
        rfl
      | cons k v tl =>
        have hff : fuelNeedFields (JFields.cons k v tl) ≤ f := by
          simp only [fuelNeed] at hfuel
          omega
        have hmain := parseFields1_ser k v tl f rest hff
        obtain ⟨Y, hY⟩ := serFields_cons_eq k v tl
        have hinput : serVal (JValue.obj (JFields.cons k v tl)) ++ rest =
            '\x7b' :: ('"' :: (Y ++ ('\x7d' :: rest))) := by
          show ('\x7b' :: (serFields (JFields.cons k v tl) ++ ['\x7d'])) ++ rest = _
          rw [hY]
          simp [List.append_assoc]
        have hmain2 : parseFields1 f ('"' :: (Y ++ ('\x7d' :: rest))) =
            some (JFields.cons k v tl, rest) := by
          rw [show '"' :: (Y ++ ('\x7d' :: rest)) =
            serFields (JFields.cons k v tl) ++ ('\x7d' :: rest) from by
              rw [hY]; rfl]
          exact hmain
        rw [hinput, parseVal.eq_def]
        dsimp only
        rw [hmain2]
        rfl
termination_by sizeOf v

theorem parseItems1_ser (v : JValue) (tl : JItems) (fuel : Nat) (rest : List Char)
    (hfuel : fuelNeedItems (JItems.cons v tl) ≤ fuel) :
    parseItems1 fuel (serItems (JItems.cons v tl) ++ (']' :: rest)) =
      some (JItems.cons v tl, rest) := by
  cases fuel with
  | zero =>
    simp only [fuelNeedItems] at hfuel
    omega
  | succ f =>
    have hv : fuelNeed v ≤ f := by
      simp only [fuelNeedItems] at hfuel
      omega
    cases tl with
    | nil =>
      have h1 := parseVal_ser v f (']' :: rest) hv (by rfl)
      rw [show serItems (JItems.cons v JItems.nil) ++ (']' :: rest) =
        serVal v ++ (']' :: rest) from by simp [serItems]]
      rw [parseItems1.eq_def]
      dsimp only
      rw [h1]
      rfl
    | cons w tl₂ =>
      have htl : fuelNeedItems (JItems.cons w tl₂) ≤ f := by
        simp only [fuelNeedItems] at hfuel ⊢
        omega
      have h1 := parseVal_ser v f
        (',' :: (serItems (JItems.cons w tl₂) ++ (']' :: rest))) hv (by rfl)
      have h2 := parseItems1_ser w tl₂ f rest htl
      rw [show serItems (JItems.cons v (JItems.cons w tl₂)) ++ (']' :: rest) =
        serVal v ++ (',' :: (serItems (JItems.cons w tl₂) ++ (']' :: rest))) from by
          show (serVal v ++ (',' :: serItems (JItems.cons w tl₂))) ++ (']' :: rest) = _
          simp [List.append_assoc]]
      rw [parseItems1.eq_def]
      dsimp only
      rw [h1]
      dsimp only
      rw [h2]
      rfl
termination_by 1 + sizeOf v + sizeOf tl

theorem parseFields1_ser (k : List Char) (v : JValue) (tl : JFields) (fuel : Nat)
    (rest : List Char) (hfuel : fuelNeedFields (JFields.cons k v tl) ≤ fuel) :
    parseFields1 fuel (serFields (JFields.cons k v tl) ++ ('\x7d' :: rest)) =
      some (JFields.cons k v tl, rest) := by
  cases fuel with
  | zero =>
    simp only [fuelNeedFields] at hfuel
    omega
  | succ f =>
    have hv : fuelNeed v ≤ f := by
      simp only [fuelNeedFields] at hfuel
      omega
    cases tl with
    | nil =>
      have h1 := parseVal_ser v f ('\x7d' :: rest) hv (by rfl)
      have hstr := parseString_escape k (':' :: (serVal v ++ ('\x7d' :: rest)))
      rw [show serFields (JFields.cons k v JFields.nil) ++ ('\x7d' :: rest) =
        '"' :: (escapeString k ++ ('"' :: (':' :: (serVal v ++ ('\x7d' :: rest))))) from by
          show ('"' :: (escapeString k ++ ('"' :: ':' :: serVal v))) ++ ('\x7d' :: rest) = _
          simp [List.append_assoc]]
      rw [parseFields1.eq_def]
      dsimp only
      rw [hstr]
      dsimp only
      rw [h1]
      rfl
    | cons k₂ w tl₂ =>
      have htl : fuelNeedFields (JFields.cons k₂ w tl₂) ≤ f := by
        simp only [fuelNeedFields] at hfuel ⊢
        omega
      have h1 := parseVal_ser v f
        (',' :: (serFields (JFields.cons k₂ w tl₂) ++ ('\x7d' :: rest))) hv (by rfl)
      have h2 := parseFields1_ser k₂ w tl₂ f rest htl
      have hstr := parseString_escape k
        (':' :: (serVal v ++ (',' :: (serFields (JFields.cons k₂ w tl₂) ++ ('\x7d' :: rest)))))
      rw [show serFields (JFields.cons k v (JFields.cons k₂ w tl₂)) ++ ('\x7d' :: rest) =
        '"' :: (escapeString k ++ ('"' :: (':' :: (serVal v ++
          (',' :: (serFields (JFields.cons k₂ w tl₂) ++ ('\x7d' :: rest))))))) from by
          show (('"' :: (escapeString k ++ ('"' :: ':' :: serVal v))) ++
            (',' :: serFields (JFields.cons k₂ w tl₂))) ++ ('\x7d' :: rest) = _
          simp [List.append_assoc]]
      rw [parseFields1.eq_def]
      dsimp only
      rw [hstr]
      dsimp only
      rw [h1]
      dsimp only
      rw [h2]
      rfl
termination_by 1 + sizeOf v + sizeOf tl

end

theorem jsonParse_ser (x : JValue) : jsonParse (serVal x) = some x := by
  unfold jsonParse
  have hfuel : fuelNeed x ≤ (serVal x).length + 1 := by
    have := fuelNeed_le x
    omega
  have h := parseVal_ser x ((serVal x).length + 1) [] hfuel rfl
  rw [List.append_nil] at h
  rw [h]

/-! ## Theorems for the claims -/

/-- Claim C3: for every accumulated builder state, the rendered selector is
the concatenation, in the fixed sequence the spec states: tag (if set), each
attribute wrapped in square brackets, id prefixed with `#` (if set), each
class prefixed with `.`, each pseudo-class prefixed with `:`, the
pseudo-element prefixed with `::` (if set) — where a singleton category is
set when its stored value is truthy, the occupancy notion the builder uses
throughout.  The sequence depends only on the state, never on call order. -/
theorem render_follows_spec_sequence (s : CssBuilder) :
    CssBuilder.render s = renderSpec s ∧
    (CssBuilder.updateSelector s).selector = renderSpec s := by
  have main : CssBuilder.render s = renderSpec s := by
    unfold CssBuilder.render renderSpec
    rw [setPart_tag s.tag, setPart_id s.identificator, setPart_pe s.psElement,
      concat_bracketed s.attributes, concat_mapped s.classes (fun c => "." ++ c),
      concat_mapped s.psClasses (fun p => ":" ++ p)]
  exact ⟨main, main⟩

/-- Claim C9: `Rectangle(w, h)` stores `width = w`, `height = h`; `getArea()`
returns `width * height` computed at call time, so mutating either field
after construction changes the value a later `getArea()` call returns. -/
theorem rectangle_stores_fields_and_area_is_live (w h w₂ h₂ : Int) :
    (Rectangle w h).width = w ∧
    (Rectangle w h).height = h ∧
    (Rectangle w h).getArea = w * h ∧
    ((Rectangle w h).setWidth w₂).getArea = w₂ * h ∧
    ((Rectangle w h).setHeight h₂).getArea = w * h₂ :=
  ⟨rfl, rfl, rfl, rfl, rfl⟩

/-- Claim C2: a second call setting an already occupied singleton category
(element, id, pseudo-element) raises the duplicate-part error and leaves the
handle fully reset (`initAll`), discarding all accumulated state.  A
category is occupied when its stored value is truthy, the test the source
uses. -/
theorem duplicate_singleton_raises_and_discards (s : CssBuilder) (v : String) :
    (jsTruthy s.tag = true →
      CssBuilder.element v s = Except.error (SelErr.duplicate, CssBuilder.initAll)) ∧
    (jsTruthy s.identificator = true →
      CssBuilder.id v s = Except.error (SelErr.duplicate, CssBuilder.initAll)) ∧
    (jsTruthy s.psElement = true →
      CssBuilder.pseudoElement v s = Except.error (SelErr.duplicate, CssBuilder.initAll)) := by
  refine ⟨fun h => ?_, fun h => ?_, fun h => ?_⟩ <;>
    simp [CssBuilder.element, CssBuilder.id, CssBuilder.pseudoElement, CssBuilder.onlyOneError, h]

/-- Witness for claim C2 at a concrete occupied handle. -/
theorem duplicate_singleton_raises_and_discards_witness :
    CssBuilder.element "div"
        ⟨some "a", [], some "x", [], [], some "p", "a#x::p", 6⟩ =
      Except.error (SelErr.duplicate, CssBuilder.initAll) ∧
    CssBuilder.id "y" ⟨some "a", [], some "x", [], [], some "p", "a#x::p", 6⟩ =
      Except.error (SelErr.duplicate, CssBuilder.initAll) ∧
    CssBuilder.pseudoElement "q" ⟨some "a", [], some "x", [], [], some "p", "a#x::p", 6⟩ =
      Except.error (SelErr.duplicate, CssBuilder.initAll) := by
  have h := duplicate_singleton_raises_and_discards
    ⟨some "a", [], some "x", [], [], some "p", "a#x::p", 6⟩ "div"
  have h₂ := duplicate_singleton_raises_and_discards
    ⟨some "a", [], some "x", [], [], some "p", "a#x::p", 6⟩ "y"
  have h₃ := duplicate_singleton_raises_and_discards
    ⟨some "a", [], some "x", [], [], some "p", "a#x::p", 6⟩ "q"
  exact ⟨h.1 rfl, h₂.2.1 rfl, h₃.2.2 rfl⟩

/-- Claim C1, counterexample: an order-violating call raises the order error
but does NOT discard the accumulated state.  After `element('a').class('c')`
the call `id('x')` violates the rank order; the handle is left exactly as it
was (tag `a`, class `c` still present), which differs from a fresh handle. -/
theorem order_error_keeps_state_cex :
    ((facadeElement "a").bind (CssBuilder.cls "c")) =
      Except.ok ⟨some "a", ["c"], none, [], [], none, "a.c", 3⟩ ∧
    CssBuilder.id "x" ⟨some "a", ["c"], none, [], [], none, "a.c", 3⟩ =
      Except.error (SelErr.order, ⟨some "a", ["c"], none, [], [], none, "a.c", 3⟩) ∧
    (⟨some "a", ["c"], none, [], [], none, "a.c", 3⟩ : CssBuilder) ≠ CssBuilder.initAll := by
  refine ⟨rfl, rfl, ?_⟩
  intro h
  exact absurd (congrArg CssBuilder.tag h) (by simp [CssBuilder.initAll])

/-- Claim C1 as amended: a fragment-adding call whose category rank is
strictly below the tracked maximum raises the order error and leaves the
handle's accumulated state unchanged (the failing call performs no mutation
and no reset); only duplicate-singleton violations reset the handle. -/
theorem order_violation_raises_and_keeps_state (s : CssBuilder) (v : String) :
    (jsTruthy s.tag = false → 1 < s.order →
      CssBuilder.element v s = Except.error (SelErr.order, s)) ∧
    (jsTruthy s.identificator = false → 2 < s.order →
      CssBuilder.id v s = Except.error (SelErr.order, s)) ∧
    (3 < s.order → CssBuilder.cls v s = Except.error (SelErr.order, s)) ∧
    (4 < s.order → CssBuilder.attr v s = Except.error (SelErr.order, s)) ∧
    (5 < s.order → CssBuilder.pseudoClass v s = Except.error (SelErr.order, s)) ∧
    (jsTruthy s.psElement = false → 6 < s.order →
      CssBuilder.pseudoElement v s = Except.error (SelErr.order, s)) := by
  refine ⟨fun h₁ h₂ => ?_, fun h₁ h₂ => ?_, fun h₂ => ?_, fun h₂ => ?_, fun h₂ => ?_,
    fun h₁ h₂ => ?_⟩ <;>
    simp_all [CssBuilder.element, CssBuilder.id, CssBuilder.cls, CssBuilder.attr,
      CssBuilder.pseudoClass, CssBuilder.pseudoElement, checkOrder_err _ _ h₂]

/-- Witness for the amended claim C1 at a concrete handle whose tracked rank
exceeds every category rank. -/
theorem order_violation_raises_and_keeps_state_witness :
    CssBuilder.element "a" ⟨none, ["c"], none, [], [], none, ".c", 7⟩ =
      Except.error (SelErr.order, ⟨none, ["c"], none, [], [], none, ".c", 7⟩) ∧
    CssBuilder.id "a" ⟨none, ["c"], none, [], [], none, ".c", 7⟩ =
      Except.error (SelErr.order, ⟨none, ["c"], none, [], [], none, ".c", 7⟩) ∧
    CssBuilder.cls "a" ⟨none, ["c"], none, [], [], none, ".c", 7⟩ =
      Except.error (SelErr.order, ⟨none, ["c"], none, [], [], none, ".c", 7⟩) ∧
    CssBuilder.attr "a" ⟨none, ["c"], none, [], [], none, ".c", 7⟩ =
      Except.error (SelErr.order, ⟨none, ["c"], none, [], [], none, ".c", 7⟩) ∧
    CssBuilder.pseudoClass "a" ⟨none, ["c"], none, [], [], none, ".c", 7⟩ =
      Except.error (SelErr.order, ⟨none, ["c"], none, [], [], none, ".c", 7⟩) ∧
    CssBuilder.pseudoElement "a" ⟨none, ["c"], none, [], [], none, ".c", 7⟩ =
      Except.error (SelErr.order, ⟨none, ["c"], none, [], [], none, ".c", 7⟩) := by
  have h := order_violation_raises_and_keeps_state
    ⟨none, ["c"], none, [], [], none, ".c", 7⟩ "a"
  exact ⟨h.1 rfl (by decide), h.2.1 rfl (by decide), h.2.2.1 (by decide),
    h.2.2.2.1 (by decide), h.2.2.2.2.1 (by decide), h.2.2.2.2.2 rfl (by decide)⟩

/-- Claim C4: a call whose rank equals the tracked maximum succeeds — the
repeatable categories (class, attribute, pseudo-class) succeed exactly when
the tracked rank is at most their own rank, each success appends one more
fragment (duplicates allowed: the same value can be appended twice in a
row), and only a strictly lower rank is rejected. -/
theorem equal_rank_succeeds_and_appends (s : CssBuilder) (v w : String) :
    ((∃ s₁, CssBuilder.cls v s = Except.ok s₁) ↔ s.order ≤ 3) ∧
    ((∃ s₁, CssBuilder.attr v s = Except.ok s₁) ↔ s.order ≤ 4) ∧
    ((∃ s₁, CssBuilder.pseudoClass v s = Except.ok s₁) ↔ s.order ≤ 5) ∧
    (s.order ≤ 3 →
      ∃ s₁ s₂, CssBuilder.cls v s = Except.ok s₁ ∧ s₁.classes = s.classes ++ [v] ∧
        s₁.order = 3 ∧ CssBuilder.cls w s₁ = Except.ok s₂ ∧
        s₂.classes = s.classes ++ [v, w]) ∧
    (s.order ≤ 4 →
      ∃ s₁, CssBuilder.attr v s = Except.ok s₁ ∧ s₁.attributes = s.attributes ++ [v] ∧
        s₁.order = 4) ∧
    (s.order ≤ 5 →
      ∃ s₁, CssBuilder.pseudoClass v s = Except.ok s₁ ∧
        s₁.psClasses = s.psClasses ++ [v] ∧ s₁.order = 5) := by
  refine ⟨?_, ?_, ?_, fun h => ?_, fun h => ?_, fun h => ?_⟩
  · constructor
    · rintro ⟨s₁, h⟩
      by_contra hgt
      rw [CssBuilder.cls, checkOrder_err 3 s (by omega)] at h
      exact absurd h (by simp)
    · intro h
      exact ⟨_, cls_ok s v h⟩
  · constructor
    · rintro ⟨s₁, h⟩
      by_contra hgt
      rw [CssBuilder.attr, checkOrder_err 4 s (by omega)] at h
      exact absurd h (by simp)
    · intro h
      exact ⟨_, attr_ok s v h⟩
  · constructor
    · rintro ⟨s₁, h⟩
      by_contra hgt
      rw [CssBuilder.pseudoClass, checkOrder_err 5 s (by omega)] at h
      exact absurd h (by simp)
    · intro h
      exact ⟨_, pseudoClass_ok s v h⟩
  · refine ⟨_, _, cls_ok s v h, rfl, rfl, cls_ok _ w (Nat.le_refl 3), ?_⟩
    show (s.classes ++ [v]) ++ [w] = s.classes ++ [v, w]
    simp
  · exact ⟨_, attr_ok s v h, rfl, rfl⟩
  · exact ⟨_, pseudoClass_ok s v h, rfl, rfl⟩

/-- Witness for claim C4: starting from a handle of tracked rank 3, class
calls still succeed and append, including an immediate duplicate. -/
theorem equal_rank_succeeds_and_appends_witness :
    (∃ s₁, CssBuilder.cls "container"
        ⟨none, ["container"], none, [], [], none, ".container", 3⟩ = Except.ok s₁) ∧
    (∃ s₁ s₂, CssBuilder.cls "container"
        ⟨none, ["container"], none, [], [], none, ".container", 3⟩ = Except.ok s₁ ∧
      s₁.classes = ["container"] ++ ["container"] ∧ s₁.order = 3 ∧
      CssBuilder.cls "container" s₁ = Except.ok s₂ ∧
      s₂.classes = ["container"] ++ ["container", "container"]) := by
  have h := equal_rank_succeeds_and_appends
    ⟨none, ["container"], none, [], [], none, ".container", 3⟩ "container" "container"
  exact ⟨h.1.mpr (by decide), h.2.2.2.1 (by decide)⟩

/-- Claim C5: `stringify()` returns the cached selector string — which every
mutating call keeps equal to the rendering of the current state — and resets
the handle to the state a freshly constructed handle has (every field back
to its initial value); the facade entry points construct that fresh state
for every new top-level call. -/
theorem stringify_returns_render_and_resets (s : CssBuilder) (v : String) :
    CssBuilder.stringify s = (s.selector, CssBuilder.mk') ∧
    CssBuilder.mk' = CssBuilder.initAll ∧
    CssBuilder.initAll = ⟨none, [], none, [], [], none, "", 0⟩ ∧
    Except.map (fun t => t.selector) (CssBuilder.element v s) =
      Except.map CssBuilder.render (CssBuilder.element v s) ∧
    Except.map (fun t => t.selector) (CssBuilder.id v s) =
      Except.map CssBuilder.render (CssBuilder.id v s) ∧
    Except.map (fun t => t.selector) (CssBuilder.cls v s) =
      Except.map CssBuilder.render (CssBuilder.cls v s) ∧
    Except.map (fun t => t.selector) (CssBuilder.attr v s) =
      Except.map CssBuilder.render (CssBuilder.attr v s) ∧
    Except.map (fun t => t.selector) (CssBuilder.pseudoClass v s) =
      Except.map CssBuilder.render (CssBuilder.pseudoClass v s) ∧
    Except.map (fun t => t.selector) (CssBuilder.pseudoElement v s) =
      Except.map CssBuilder.render (CssBuilder.pseudoElement v s) ∧
    facadeElement v = CssBuilder.element v CssBuilder.mk' ∧
    facadeId v = CssBuilder.id v CssBuilder.mk' ∧
    facadeClass v = CssBuilder.cls v CssBuilder.mk' ∧
    facadeAttr v = CssBuilder.attr v CssBuilder.mk' ∧
    facadePseudoClass v = CssBuilder.pseudoClass v CssBuilder.mk' ∧
    facadePseudoElement v = CssBuilder.pseudoElement v CssBuilder.mk' := by
  refine ⟨rfl, rfl, rfl, ?_, ?_, ?_, ?_, ?_, ?_, rfl, rfl, rfl, rfl, rfl, rfl⟩
  · unfold CssBuilder.element
    split
    · rfl
    · split <;> rfl
  · unfold CssBuilder.id
    split
    · rfl
    · split <;> rfl
  · unfold CssBuilder.cls
    split <;> rfl
  · unfold CssBuilder.attr
    split <;> rfl
  · unfold CssBuilder.pseudoClass
    split <;> rfl
  · unfold CssBuilder.pseudoElement
    split
    · rfl
    · split <;> rfl

/-- Claim C6: `combine` stringifies both argument handles (resetting them)
and stores exactly `left ++ " " ++ combinator ++ " " ++ right` as the
pending selector, which a subsequent `stringify()` returns; the spec's own
example `div#main + table#data` is reproduced. -/
theorem combine_joins_with_padded_combinator (s l r : CssBuilder) (comb : String) :
    CssBuilder.combine s l comb r =
      ({ s with selector :=
          (CssBuilder.stringify l).1 ++ " " ++ comb ++ " " ++ (CssBuilder.stringify r).1 },
        CssBuilder.initAll, CssBuilder.initAll) ∧
    (CssBuilder.stringify (CssBuilder.combine s l comb r).1).1 =
      (CssBuilder.stringify l).1 ++ " " ++ comb ++ " " ++ (CssBuilder.stringify r).1 ∧
    (∃ l' r',
      (facadeElement "div").bind (CssBuilder.id "main") = Except.ok l' ∧
      (facadeElement "table").bind (CssBuilder.id "data") = Except.ok r' ∧
      (CssBuilder.stringify (facadeCombine l' "+" r').1).1 = "div#main + table#data") := by
  refine ⟨rfl, rfl,
    ⟨⟨some "div", [], some "main", [], [], none, "div#main", 2⟩,
      ⟨some "table", [], some "data", [], [], none, "table#data", 2⟩, rfl, rfl, rfl⟩⟩

/-- Claim C10: setting a singleton category to the empty string (a falsy
value) does not mark it as occupied — the occupancy test is truthiness — so
a second call of the same category succeeds and overwrites the value rather
than raising the duplicate-part error. -/
theorem falsy_singleton_not_marked_set (s s₁ : CssBuilder) (v : String) :
    (CssBuilder.element "" s = Except.ok s₁ →
      jsTruthy s₁.tag = false ∧
        ∃ s₂, CssBuilder.element v s₁ = Except.ok s₂ ∧ s₂.tag = some v) ∧
    (CssBuilder.id "" s = Except.ok s₁ →
      jsTruthy s₁.identificator = false ∧
        ∃ s₂, CssBuilder.id v s₁ = Except.ok s₂ ∧ s₂.identificator = some v) ∧
    (CssBuilder.pseudoElement "" s = Except.ok s₁ →
      jsTruthy s₁.psElement = false ∧
        ∃ s₂, CssBuilder.pseudoElement v s₁ = Except.ok s₂ ∧ s₂.psElement = some v) := by
  refine ⟨fun h => ?_, fun h => ?_, fun h => ?_⟩
  · unfold CssBuilder.element at h
    split at h
    · exact absurd h (by simp)
    · split at h
      · exact absurd h (by simp)
      · rename_i s' heq
        injection h with h
        subst h
        have horder : s'.order = 1 := by
          unfold CssBuilder.checkOrder at heq
          split at heq
          · exact absurd heq (by simp)
          · injection heq with heq
            subst heq
            rfl
        exact ⟨rfl, _,
          element_ok _ v (by simp [jsTruthy, CssBuilder.updateSelector])
            (by simp [CssBuilder.updateSelector, horder]), rfl⟩
  · unfold CssBuilder.id at h
    split at h
    · exact absurd h (by simp)
    · split at h
      · exact absurd h (by simp)
      · rename_i s' heq
        injection h with h
        subst h
        have horder : s'.order = 2 := by
          unfold CssBuilder.checkOrder at heq
          split at heq
          · exact absurd heq (by simp)
          · injection heq with heq
            subst heq
            rfl
        exact ⟨rfl, _,
          id_ok _ v (by simp [jsTruthy, CssBuilder.updateSelector])
            (by simp [CssBuilder.updateSelector, horder]), rfl⟩
  · unfold CssBuilder.pseudoElement at h
    split at h
    · exact absurd h (by simp)
    · split at h
      · exact absurd h (by simp)
      · rename_i s' heq
        injection h with h
        subst h
        have horder : s'.order = 6 := by
          unfold CssBuilder.checkOrder at heq
          split at heq
          · exact absurd heq (by simp)
          · injection heq with heq
            subst heq
            rfl
        exact ⟨rfl, _,
          pseudoElement_ok _ v (by simp [jsTruthy, CssBuilder.updateSelector])
            (by simp [CssBuilder.updateSelector, horder]), rfl⟩

/-- Witness for claim C10: after `element('')` on a fresh handle, a second
`element('div')` succeeds and overwrites; likewise for id and
pseudo-element. -/
theorem falsy_singleton_not_marked_set_witness :
    (jsTruthy (CssBuilder.tag ⟨some "", [], none, [], [], none, "", 1⟩) = false ∧
      ∃ s₂, CssBuilder.element "div" ⟨some "", [], none, [], [], none, "", 1⟩ =
        Except.ok s₂ ∧ s₂.tag = some "div") ∧
    (jsTruthy (CssBuilder.identificator ⟨none, [], some "", [], [], none, "", 2⟩) = false ∧
      ∃ s₂, CssBuilder.id "main" ⟨none, [], some "", [], [], none, "", 2⟩ =
        Except.ok s₂ ∧ s₂.identificator = some "main") ∧
    (jsTruthy (CssBuilder.psElement ⟨none, [], none, [], [], some "", "", 6⟩) = false ∧
      ∃ s₂, CssBuilder.pseudoElement "after" ⟨none, [], none, [], [], some "", "", 6⟩ =
        Except.ok s₂ ∧ s₂.psElement = some "after") := by
  refine ⟨?_, ?_, ?_⟩
  · exact (falsy_singleton_not_marked_set CssBuilder.initAll
      ⟨some "", [], none, [], [], none, "", 1⟩ "div").1 rfl
  · exact (falsy_singleton_not_marked_set CssBuilder.initAll
      ⟨none, [], some "", [], [], none, "", 2⟩ "main").2.1 rfl
  · exact (falsy_singleton_not_marked_set CssBuilder.initAll
      ⟨none, [], none, [], [], some "", "", 6⟩ "after").2.2 rfl

/-- Claim C7: deserialization is a left inverse of serialization on plain
structured data — for every descriptor `P` and every plain value `x`,
`fromJSON P (getJSON x)` succeeds and yields a value carrying exactly the
data `x` (same keys and values) with `P` bound to it. -/
theorem deserialize_left_inverse_of_serialize (α : Type) (P : α) (x : JValue) :
    fromJSON P (getJSON x) = Except.ok { proto := P, data := x } := by
  unfold fromJSON getJSON
  rw [show (String.mk (serVal x)).data = serVal x from rfl, jsonParse_ser x]

/-- Claim C8: `fromJSON P t` fails with `ParseError` exactly when `t` is not
valid serialized data (the parser rejects it), and on valid text it binds
`P` to the parsed value unconditionally — no shape validation against the
descriptor, the descriptor just becomes the value's prototype. -/
theorem deserialize_fails_iff_invalid (α : Type) (P : α) (t : String) :
    ((∃ e, fromJSON P t = Except.error e) ↔ jsonParse t.data = none) ∧
    (∀ v, jsonParse t.data = some v →
      fromJSON P t = Except.ok { proto := P, data := v }) := by
  constructor
  · constructor
    · rintro ⟨e, he⟩
      unfold fromJSON at he
      cases hj : jsonParse t.data with
      | none => rfl
      | some v =>
        rw [hj] at he
        exact absurd he (by simp)
    · intro hj
      exact ⟨ParseError.parseError, by unfold fromJSON; rw [hj]⟩
  · intro v hj
    unfold fromJSON
    rw [hj]

/-- Witness for claim C8: the spec's `Circle` example — parsing the literal
text of an object with `radius` 10 succeeds and the descriptor is bound
unconditionally; malformed text yields the error. -/
theorem deserialize_fails_iff_invalid_witness :
    fromJSON "Circle" "\x7b\"radius\":10\x7d" =
      Except.ok
        { proto := "Circle",
          data := JValue.obj (JFields.cons ("radius".data) (JValue.num 10) JFields.nil) } ∧
    (∃ e, fromJSON "Circle" "nope" = Except.error e) := by
  constructor
  · exact (deserialize_fails_iff_invalid String "Circle" "\x7b\"radius\":10\x7d").2
      (JValue.obj (JFields.cons ("radius".data) (JValue.num 10) JFields.nil)) rfl
  · exact (deserialize_fails_iff_invalid String "Circle" "nope").1.mpr rfl
